import Mathlib

/-!
# Verification of `ImbalancedDatasetSampler`

Shallow embedding of `src/ImbalancedDatasetSampler.py`.

The sampler has three phases, embedded separately:

* label resolution (`__init__`, lines 79-92): dynamic typing matters there
  (the per-class branch assigns `cl[i]`, an element, where a list is
  expected), so it is modelled over a small Python value type `PyVal`;
* class-size resolution (`__init__`, lines 43-49 and 94-120): the
  `sampling_factor` dispatch on runtime type, modelled by the tagged type
  `SamplingFactor`; Python floats are modelled as rationals, `int()`
  truncation as `pyTrunc`;
* index building and iteration (`__build_indices`, `__iter__`, `__len__`):
  `random.sample` is an external primitive, modelled by an explicit
  sampling function `samp` together with the predicate `IsSample`
  (a uniform without-replacement sample of size `k` is exactly a length-`k`
  sub-permutation of the population).

Fallible Python code is embedded in `Except PyErr`.
-/

/-- The Python exception kinds raised by the code under study. -/
inductive PyErr where
  | typeError
  | indexError
  | attributeError
  | assertionError
  | zeroDivisionError
  | valueError
  | notImplementedError
  | runtimeError
  | exception
deriving DecidableEq, Repr

/-- Dynamically typed Python values, as far as the label-resolution code
needs them: integers and (nested) lists of values. -/
inductive PyVal where
  | vint : Int → PyVal
  | vlist : List PyVal → PyVal

/-- Python `len(v)`: length of a list, `TypeError` on an integer. -/
def pyLen : PyVal → Except PyErr Nat
  | .vlist l => .ok l.length
  | .vint _ => .error .typeError

/-- Python subscription `v[i]` with an integer index: negative indices wrap
from the end, out-of-range indices raise `IndexError`, and subscribing an
integer raises `TypeError`. -/
def pyGetItem : PyVal → Int → Except PyErr PyVal
  | .vint _, _ => .error .typeError
  | .vlist l, i =>
    let j : Int := if i < 0 then i + l.length else i
    if h : 0 ≤ j ∧ j < l.length then
      .ok (l.get ⟨j.toNat, by omega⟩)
    else
      .error .indexError

/-- One step of the flat-labels loop (`__init__` lines 83-84):
`self.labels[label].append(i)`.  The index `label` must be an integer
(else `TypeError`), is normalized Python-style, must be in range (else
`IndexError`), and the entry there must be a list to have `.append`
(else `AttributeError`). -/
def appendAt (acc : List PyVal) (label : PyVal) (i : Nat) : Except PyErr (List PyVal) :=
  match label with
  | .vint v =>
    let j : Int := if v < 0 then v + acc.length else v
    if h : 0 ≤ j ∧ j < acc.length then
      match acc.get ⟨j.toNat, by omega⟩ with
      | .vlist l => .ok (acc.set j.toNat (.vlist (l ++ [.vint i])))
      | .vint _ => .error .attributeError
    else
      .error .indexError
  | .vlist _ => .error .typeError

/-- The flat-labels loop (`__init__` lines 83-84), enumerating `labels`
from position `i`. -/
def flatLoop : List PyVal → Nat → List PyVal → Except PyErr (List PyVal)
  | [], _, acc => .ok acc
  | lab :: rest, i, acc =>
    match appendAt acc lab i with
    | .error e => .error e
    | .ok acc' => flatLoop rest (i + 1) acc'

/-- Flat-labels interpretation (`__init__` lines 79, 82-84): start from
`num_classes` empty class lists and append each dataset index `i` to the
class list selected by `labels[i]`. -/
def flatResolve (numClasses : Nat) (labels : List PyVal) : Except PyErr (List PyVal) :=
  flatLoop labels 0 (List.replicate numClasses (.vlist []))

/-- The per-class loop (`__init__` lines 88-90): for each `i`,
`self.labels[i] = cl[i]; sum += len(self.labels[i])`.  Note the source
reads `cl[i]` — the `i`-th *element* of the `i`-th inner list — not `cl`. -/
def perClassLoop : List PyVal → Nat → Nat → List PyVal → Except PyErr (Nat × List PyVal)
  | [], _, sum, acc => .ok (sum, acc)
  | cl :: rest, i, sum, acc =>
    match pyGetItem cl i with
    | .error e => .error e
    | .ok x =>
      match pyLen x with
      | .error e => .error e
      | .ok n => perClassLoop rest (i + 1) (sum + n) (acc.set i x)

/-- Per-class-indices interpretation (`__init__` lines 86-92): assert
`len(labels) == num_classes`, run the per-class loop over the
`num_classes` initially-empty class lists, then assert the accumulated
total equals the dataset length. -/
def perClassResolve (dsLen numClasses : Nat) (labels : List PyVal) :
    Except PyErr (List PyVal) :=
  if labels.length = numClasses then
    match perClassLoop labels 0 0 (List.replicate numClasses (.vlist [])) with
    | .error e => .error e
    | .ok r => if r.1 = dsLen then .ok r.2 else .error .assertionError
  else
    .error .assertionError

/-- Label resolution (`__init__` lines 79-92): dispatch solely on whether
`len(labels) == len(dataset)`. -/
def resolveLabels (dsLen numClasses : Nat) (labels : List PyVal) :
    Except PyErr (List PyVal) :=
  if labels.length = dsLen then flatResolve numClasses labels
  else perClassResolve dsLen numClasses labels

/-- The constructor's `sampling_factor` argument: a Python value that is
an `int`, a `float` (modelled as a rational) or a `str`. -/
inductive SamplingFactor where
  | pyint : Int → SamplingFactor
  | pyfloat : ℚ → SamplingFactor
  | pystr : String → SamplingFactor
deriving DecidableEq, Repr

/-- String-alias normalization (`__init__` lines 46-49). -/
def normalizeSF : SamplingFactor → SamplingFactor
  | .pystr s =>
    if s = "oversampling" then .pyfloat 1
    else if s = "undersampling" then .pyfloat 0
    else .pystr s
  | sf => sf

/-- Python `int()` on a real number: truncation toward zero. -/
def pyTrunc (q : ℚ) : Int :=
  if q < 0 then ⌈q⌉ else ⌊q⌋

/-- The range assertion (`__init__` line 120):
`assert self.class_size <= max_size and self.class_size >= min_size`. -/
def checkClassSize (minSize maxSize : Nat) (cs : Int) : Except PyErr Int :=
  if cs ≤ (maxSize : Int) ∧ (minSize : Int) ≤ cs then .ok cs
  else .error .assertionError

/-- Class-size resolution (`__init__` lines 43-49 and 98-120), given the
smallest and largest class sizes.  Branches exactly as the source does:
non-`int` values go through the float comparisons (a non-alias string
raises `TypeError` there, as `0.0 <= str` does in Python 3); `int(1)` is
rejected; every branch ends in the line-120 range assertion. -/
def resolveClassSize (sf : SamplingFactor) (minSize maxSize : Nat) : Except PyErr Int :=
  match normalizeSF sf with
  | .pyint n =>
    if n = 1 then .error .notImplementedError
    else checkClassSize minSize maxSize n
  | .pyfloat f =>
    if 0 ≤ f ∧ f ≤ 1 then
      let interClassDistance : Int := |(maxSize : Int) - (minSize : Int)|
      checkClassSize minSize maxSize
        ((minSize : Int) + pyTrunc (f * (interClassDistance : ℚ)))
    else if -1 < f ∧ f < 0 then
      checkClassSize minSize maxSize (pyTrunc ((maxSize : ℚ) * (-f)))
    else if f < -1 then
      checkClassSize minSize maxSize (pyTrunc ((minSize : ℚ) * (-f)))
    else .error .notImplementedError
  | .pystr _ => .error .typeError

/-- A value `s` is a possible result of `random.sample(l, k)`: `k`
distinct positions of `l` in some order, i.e. a length-`k`
sub-permutation of `l`. -/
def IsSample (l : List Nat) (k : Nat) (s : List Nat) : Prop :=
  s.length = k ∧ s.Subperm l

/-- A sampling function standing in for `random.sample`: on every valid
call it returns some without-replacement sample. -/
def ValidSamp (samp : List Nat → Nat → List Nat) : Prop :=
  ∀ l k, k ≤ l.length → IsSample l k (samp l k)

/-- A deterministic valid sampler (the one that picks the first `k`
elements), used to instantiate theorems on concrete inputs. -/
def takeSamp (l : List Nat) (k : Nat) : List Nat :=
  l.take k

/-- A valid sampler that returns the chosen elements in reversed order. -/
def revTakeSamp (l : List Nat) (k : Nat) : List Nat :=
  (l.take k).reverse

/-- One class's emission (`__build_indices` lines 130-144): with
`n = len(class_l)`, if `n <= class_size` emit `reps = class_size // n`
full copies of the class list followed by a sample of size
`class_size % n`; otherwise emit a sample of size `class_size`.
(The source's line-138 assert `sample == class_size - reps * num_in_class`
is an arithmetic identity of integer division and can never fire; it is
elided.) -/
def classEmission (samp : List Nat → Nat → List Nat) (classSize : Nat)
    (class_l : List Nat) : List Nat :=
  if class_l.length ≤ classSize then
    (List.replicate (classSize / class_l.length) class_l).flatten ++
      samp class_l (classSize % class_l.length)
  else
    samp class_l classSize

/-- The loop of `__build_indices` (lines 129-145).  An empty class makes
`class_size // 0` raise `ZeroDivisionError` (the branch guard
`num_in_class <= class_size` always holds at 0). -/
def buildLoop (samp : List Nat → Nat → List Nat) (classSize : Nat) :
    List (List Nat) → Except PyErr (List Nat)
  | [] => .ok []
  | class_l :: rest =>
    if class_l.length = 0 then .error .zeroDivisionError
    else
      match buildLoop samp classSize rest with
      | .error e => .error e
      | .ok tail => .ok (classEmission samp classSize class_l ++ tail)

/-- `__build_indices` (lines 124-149): run the loop over all classes and
check the final assert `len(indices) == class_size * num_classes`. -/
def buildIndices (samp : List Nat → Nat → List Nat) (labels : List (List Nat))
    (classSize : Nat) : Except PyErr (List Nat) :=
  match buildLoop samp classSize labels with
  | .error e => .error e
  | .ok indices =>
    if indices.length = classSize * labels.length then .ok indices
    else .error .assertionError

/-- The sampler's state after a successful construction. -/
structure Sampler where
  numClasses : Nat
  classSize : Nat
  indices : List Nat
  shuffle : Bool
deriving DecidableEq, Repr

/-- The constructor from an already-resolved partition (`__init__` lines
43-44 and 94-122): reject an absent `sampling_factor`, compute the class
sizes (Python's `min`/`max` raise `ValueError` on an empty list), resolve
the class size and build the index list. -/
def initFromPartition (samp : List Nat → Nat → List Nat)
    (labels : List (List Nat)) (sf? : Option SamplingFactor) (shuffle : Bool) :
    Except PyErr Sampler :=
  match sf? with
  | none => .error .exception
  | some sf =>
    match labels.map List.length with
    | [] => .error .valueError
    | sz :: szs =>
      let minSize := szs.foldl Nat.min sz
      let maxSize := szs.foldl Nat.max sz
      match resolveClassSize sf minSize maxSize with
      | .error e => .error e
      | .ok cs =>
        match buildIndices samp labels cs.toNat with
        | .error e => .error e
        | .ok idx => .ok ⟨labels.length, cs.toNat, idx, shuffle⟩

/-- One iteration pass (`__iter__` lines 151-156): if shuffling is
enabled, permute the stored indices in place (the permutation chosen by
the random source is the function `shuf`), then yield the stored list.
Returns the sampler's state after the pass together with the yielded
sequence. -/
def iterPass (shuf : List Nat → List Nat) (s : Sampler) : Sampler × List Nat :=
  if s.shuffle then
    let l := shuf s.indices
    ({ s with indices := l }, l)
  else
    (s, s.indices)

/-- `__len__` (lines 158-159). -/
def samplerLen (s : Sampler) : Nat :=
  s.classSize * s.numClasses

/-- The worked example partition of the specification: class 0 holds the
indices `[0,1,2]`, class 1 holds `[3,4,5,6,7]`. -/
def exampleLabels : List (List Nat) :=
  [[0, 1, 2], [3, 4, 5, 6, 7]]

/-! ## Basic facts about the sampling model and the builder -/

theorem takeSamp_valid : ValidSamp takeSamp := by
  intro l k hk
  exact ⟨by simp [takeSamp, hk], (l.take_sublist k).subperm⟩

theorem revTakeSamp_valid : ValidSamp revTakeSamp := by
  intro l k hk
  refine ⟨by simp [revTakeSamp, hk], ?_⟩
  exact ((l.take k).reverse_perm.subperm).trans (l.take_sublist k).subperm

theorem flatten_replicate_length (k : Nat) (l : List Nat) :
    ((List.replicate k l).flatten).length = k * l.length := by
  induction k with
  | zero => simp
  | succ n ih =>
    rw [List.replicate_succ, List.flatten_cons, List.length_append, ih]
    ring

theorem mem_flatten_replicate {x k : Nat} {l : List Nat}
    (h : x ∈ (List.replicate k l).flatten) : x ∈ l := by
  induction k with
  | zero => simp at h
  | succ n ih =>
    rw [List.replicate_succ, List.flatten_cons, List.mem_append] at h
    exact h.elim id ih

theorem count_flatten_replicate (x k : Nat) (l : List Nat) :
    ((List.replicate k l).flatten).count x = k * l.count x := by
  induction k with
  | zero => simp
  | succ n ih =>
    rw [List.replicate_succ, List.flatten_cons, List.count_append, ih]
    ring

theorem classEmission_length (samp : List Nat → Nat → List Nat)
    (hv : ValidSamp samp) (cs : Nat) (l : List Nat) (hl : l ≠ []) :
    (classEmission samp cs l).length = cs := by
  have hpos : 0 < l.length := List.length_pos.mpr hl
  unfold classEmission
  by_cases hc : l.length ≤ cs
  · rw [if_pos hc, List.length_append, flatten_replicate_length,
      (hv l (cs % l.length) (le_of_lt (Nat.mod_lt _ hpos))).1, Nat.mul_comm]
    exact Nat.div_add_mod cs l.length
  · rw [if_neg hc]
    exact (hv l cs (le_of_lt (Nat.lt_of_not_le hc))).1

theorem classEmission_subset (samp : List Nat → Nat → List Nat)
    (hv : ValidSamp samp) (cs : Nat) (l : List Nat) (hl : l ≠ []) :
    ∀ x ∈ classEmission samp cs l, x ∈ l := by
  intro x hx
  have hpos : 0 < l.length := List.length_pos.mpr hl
  unfold classEmission at hx
  by_cases hc : l.length ≤ cs
  · rw [if_pos hc, List.mem_append] at hx
    rcases hx with h | h
    · exact mem_flatten_replicate h
    · exact (hv l (cs % l.length) (le_of_lt (Nat.mod_lt _ hpos))).2.subset h
  · rw [if_neg hc] at hx
    exact (hv l cs (le_of_lt (Nat.lt_of_not_le hc))).2.subset hx

theorem emissions_flatten_length (samp : List Nat → Nat → List Nat)
    (hv : ValidSamp samp) (cs : Nat) (labels : List (List Nat))
    (hne : ∀ l ∈ labels, l ≠ []) :
    ((labels.map (classEmission samp cs)).flatten).length = cs * labels.length := by
  induction labels with
  | nil => simp
  | cons a as ih =>
    rw [List.map_cons, List.flatten_cons, List.length_append,
      classEmission_length samp hv cs a (hne a (List.mem_cons_self a as)),
      ih (fun l hl => hne l (List.mem_cons_of_mem _ hl)), List.length_cons]
    ring

theorem buildLoop_ok_of_ne_nil (samp : List Nat → Nat → List Nat) (cs : Nat)
    (labels : List (List Nat)) (h : ∀ l ∈ labels, l ≠ []) :
    buildLoop samp cs labels = .ok ((labels.map (classEmission samp cs)).flatten) := by
  induction labels with
  | nil => rfl
  | cons a as ih =>
    have ha : ¬ a.length = 0 := by
      simpa [List.length_eq_zero] using h a (List.mem_cons_self a as)
    rw [buildLoop, if_neg ha, ih (fun l hl => h l (List.mem_cons_of_mem _ hl))]
    rw [List.map_cons, List.flatten_cons]

theorem buildLoop_error_of_empty_mem (samp : List Nat → Nat → List Nat) (cs : Nat)
    (labels : List (List Nat)) (h : [] ∈ labels) :
    buildLoop samp cs labels = .error .zeroDivisionError := by
  induction labels with
  | nil => cases h
  | cons a as ih =>
    rcases List.mem_cons.mp h with ha | ha
    · rw [buildLoop, if_pos (by rw [← ha]; rfl)]
    · by_cases hz : a.length = 0
      · rw [buildLoop, if_pos hz]
      · rw [buildLoop, if_neg hz, ih ha]

theorem buildLoop_ok_inv (samp : List Nat → Nat → List Nat) (cs : Nat)
    (labels : List (List Nat)) (idx : List Nat)
    (h : buildLoop samp cs labels = .ok idx) :
    idx = (labels.map (classEmission samp cs)).flatten := by
  induction labels generalizing idx with
  | nil =>
    rw [buildLoop] at h
    cases h
    simp
  | cons a as ih =>
    rw [buildLoop] at h
    by_cases hz : a.length = 0
    · rw [if_pos hz] at h
      cases h
    · rw [if_neg hz] at h
      cases hb : buildLoop samp cs as with
      | error e => rw [hb] at h; cases h
      | ok tail =>
        rw [hb] at h
        cases h
        rw [List.map_cons, List.flatten_cons, ih tail hb]

theorem buildIndices_ok_of (samp : List Nat → Nat → List Nat)
    (hv : ValidSamp samp) (labels : List (List Nat)) (cs : Nat)
    (hne : ∀ l ∈ labels, l ≠ []) :
    buildIndices samp labels cs = .ok ((labels.map (classEmission samp cs)).flatten) := by
  rw [buildIndices, buildLoop_ok_of_ne_nil samp cs labels hne]
  dsimp only
  rw [if_pos (emissions_flatten_length samp hv cs labels hne)]

theorem buildIndices_error_of_empty_mem (samp : List Nat → Nat → List Nat)
    (labels : List (List Nat)) (cs : Nat) (h : [] ∈ labels) :
    buildIndices samp labels cs = .error .zeroDivisionError := by
  rw [buildIndices, buildLoop_error_of_empty_mem samp cs labels h]

theorem buildIndices_ok_inv (samp : List Nat → Nat → List Nat)
    (labels : List (List Nat)) (cs : Nat) (idx : List Nat)
    (h : buildIndices samp labels cs = .ok idx) :
    idx = (labels.map (classEmission samp cs)).flatten ∧
      idx.length = cs * labels.length := by
  rw [buildIndices] at h
  cases hb : buildLoop samp cs labels with
  | error e => rw [hb] at h; cases h
  | ok indices =>
    rw [hb] at h
    dsimp only at h
    by_cases hlen : indices.length = cs * labels.length
    · rw [if_pos hlen] at h
      cases h
      exact ⟨buildLoop_ok_inv samp cs labels _ hb, hlen⟩
    · rw [if_neg hlen] at h
      cases h

/-! ## Claims -/

/-- C1: the specification says the per-class-indices interpretation copies
each inner list wholesale into `classes[i]`.  The source instead executes
`self.labels[i] = cl[i]` (line 89), storing the `i`-th *element* of the
`i`-th inner list, so on the documented input shape (a list of
`num_classes` index lists) the following `len(self.labels[i])` raises
`TypeError`.  Evaluating the embedded code on the concrete failing input
`labels = [[0,1,2],[3,4]]`, `num_classes = 2`, dataset length 5: the claim
predicts `classes = [[0,1,2],[3,4]]`; the code raises. -/
theorem c1_per_class_branch_raises :
    resolveLabels 5 2 [.vlist [.vint 0, .vint 1, .vint 2], .vlist [.vint 3, .vint 4]] =
      .error .typeError := rfl

/-- C3: the claim (and the source's own docstring, which promises that any
whole number `sampling_factor >= 2` sets the class size, over- or
undersampling as needed) says a fixed size outside `[min_size, max_size]`
still constructs.  The line-120 assertion is unconditional, so the code
rejects it: with class sizes 3 and 5, `sampling_factor = int(10)` raises
`AssertionError`, while the in-range `int(4)` succeeds. -/
theorem c3_fixed_size_constrained_by_assert :
    resolveClassSize (.pyint 10) 3 5 = .error .assertionError ∧
      resolveClassSize (.pyint 4) 3 5 = .ok 4 ∧
      initFromPartition takeSamp exampleLabels (some (.pyint 10)) false =
        .error .assertionError :=
  ⟨rfl, rfl, rfl⟩

/-- C4 (counterexample): the claim says an empty class makes construction
fail at the class-size resolution step.  On the concrete partition
`[[], [0,1,2,3,4]]` with `sampling_factor = 0.0`, class-size resolution
*succeeds* (with `min_size = 0` the line-120 assertion passes and
`class_size = 0` is returned); construction fails only later, inside
`__build_indices`, with `ZeroDivisionError` from `class_size // 0`. -/
theorem c4_counterexample :
    resolveClassSize (.pyfloat 0) 0 5 = .ok 0 ∧
      buildIndices takeSamp [[], [0, 1, 2, 3, 4]] 0 = .error .zeroDivisionError ∧
      initFromPartition takeSamp [[], [0, 1, 2, 3, 4]] (some (.pyfloat 0)) false =
        .error .zeroDivisionError := by
  refine ⟨?_, rfl, ?_⟩
  · norm_num [resolveClassSize, normalizeSF, checkClassSize, pyTrunc]
  · norm_num [initFromPartition, resolveClassSize, normalizeSF, checkClassSize,
      pyTrunc, buildIndices, buildLoop]

/-- C4 (amended): if any class's index list is empty, construction still
fails for every sampling-factor mode, but the `ZeroDivisionError` is
raised during index building (`class_size // 0`), after class-size
resolution has run — not as an `InvariantViolation` at the class-size
resolution step. -/
theorem c4_empty_class_fails_in_build (samp : List Nat → Nat → List Nat)
    (labels : List (List Nat)) (sf? : Option SamplingFactor) (shuffle : Bool)
    (h : [] ∈ labels) :
    (∀ cs, buildIndices samp labels cs = .error .zeroDivisionError) ∧
      ∃ e, initFromPartition samp labels sf? shuffle = .error e := by
  refine ⟨fun cs => buildIndices_error_of_empty_mem samp labels cs h, ?_⟩
  match sf? with
  | none => exact ⟨.exception, rfl⟩
  | some sf =>
    match labels, h with
    | a :: as, h =>
      rw [initFromPartition]
      dsimp only [List.map_cons]
      cases hr : resolveClassSize sf ((as.map List.length).foldl Nat.min a.length)
          ((as.map List.length).foldl Nat.max a.length) with
      | error e => exact ⟨e, rfl⟩
      | ok cs =>
        refine ⟨.zeroDivisionError, ?_⟩
        dsimp only
        rw [buildIndices_error_of_empty_mem samp (a :: as) cs.toNat h]

/-- C4 (witness for the amended theorem), at the concrete partition
`[[], [0]]` with `sampling_factor = 0.0`. -/
theorem c4_amended_witness :
    buildIndices takeSamp [[], [0]] 3 = .error .zeroDivisionError ∧
      ∃ e, initFromPartition takeSamp [[], [0]] (some (.pyfloat 0)) false = .error e :=
  have h := c4_empty_class_fails_in_build takeSamp [[], [0]]
    (some (.pyfloat 0)) false (by simp)
  ⟨h.1 3, h.2⟩

/-- C10: the interpretation of `labels` is chosen solely by comparing
`len(labels)` with the dataset length (line 82).  When `num_classes`
equals the dataset length, any `labels` of length `num_classes` therefore
goes through the flat-labels branch (each element used as a class id for
one consecutive dataset index), and the per-class-indices branch is
unreachable — in particular a per-class-shaped input (whose first element
is an inner list) is fed to `self.labels[label].append(i)` with a list as
index and raises `TypeError`. -/
theorem c10_flat_branch_when_lengths_coincide (dsLen numClasses : Nat)
    (labels : List PyVal) (h1 : labels.length = numClasses)
    (h2 : numClasses = dsLen) :
    resolveLabels dsLen numClasses labels = flatResolve numClasses labels ∧
      ∀ hd tl, labels = .vlist hd :: tl →
        resolveLabels dsLen numClasses labels = .error .typeError := by
  have hbranch : resolveLabels dsLen numClasses labels = flatResolve numClasses labels := by
    rw [resolveLabels, if_pos (h1.trans h2)]
  refine ⟨hbranch, fun hd tl hshape => ?_⟩
  rw [hbranch, hshape, flatResolve, flatLoop]
  rfl

/-- C10 (witness): with `num_classes = 2` on a dataset of length 2, the
flat input `[0, 1]` is resolved by the flat branch, and the
per-class-shaped input `[[0], [1]]` is also read as flat labels and
raises `TypeError`. -/
theorem c10_witness :
    (resolveLabels 2 2 [.vint 0, .vint 1] = flatResolve 2 [.vint 0, .vint 1] ∧
      flatResolve 2 [.vint 0, .vint 1] =
        .ok [.vlist [.vint 0], .vlist [.vint 1]]) ∧
      resolveLabels 2 2 [.vlist [.vint 0], .vlist [.vint 1]] = .error .typeError :=
  ⟨⟨(c10_flat_branch_when_lengths_coincide 2 2 [.vint 0, .vint 1] rfl rfl).1, rfl⟩,
    (c10_flat_branch_when_lengths_coincide 2 2 [.vlist [.vint 0], .vlist [.vint 1]]
      rfl rfl).2 [.vint 0] [.vlist [.vint 1]] rfl⟩

/-- C5 (counterexample): on the worked example (`class_size = 3`, class 0
of size 3), the claim says class 0's emission comes from the sample-only
branch with remainder 3, i.e. it equals the random 3-sample of `[0,1,2]`
and may appear in arbitrary order.  The code's branch test is
`num_in_class <= class_size`, so `n == class_size` takes the repetition
branch: `reps = 1`, `sample = 0`, emitting `[0,1,2]` deterministically in
original order.  With the valid sampler `revTakeSamp`, whose 3-sample of
`[0,1,2]` is `[2,1,0]`, the built sequence nonetheless starts `[0,1,2]`,
not with that sample. -/
theorem c5_counterexample :
    resolveClassSize (.pyfloat 0) 3 5 = .ok 3 ∧
      IsSample [0, 1, 2] 3 (revTakeSamp [0, 1, 2] 3) ∧
      revTakeSamp [0, 1, 2] 3 = [2, 1, 0] ∧
      buildIndices revTakeSamp exampleLabels 3 = .ok ([0, 1, 2] ++ [5, 4, 3]) ∧
      ([0, 1, 2] ++ [5, 4, 3]).take 3 ≠ revTakeSamp [0, 1, 2] 3 := by
  refine ⟨?_, ⟨rfl, by decide⟩, rfl, rfl, by decide⟩
  norm_num [resolveClassSize, normalizeSF, checkClassSize, pyTrunc]

/-- C5 (amended): with `num_classes = 2`, class 0 = `[0,1,2]`, class 1 =
`[3,4,5,6,7]` and `sampling_factor = 0.0`, the class size resolves to 3
and the built sequence has length 6 with 3 entries from each class;
class 0's emission is produced by the repetition branch
(`n <= class_size` with `reps = 1`, remainder 0), i.e. it is exactly
`[0,1,2]` in original order, and class 1's emission is a uniform
without-replacement 3-subset of `{3,4,5,6,7}`. -/
theorem c5_amended_example (samp : List Nat → Nat → List Nat)
    (h0 : IsSample [0, 1, 2] 0 (samp [0, 1, 2] 0))
    (h1 : IsSample [3, 4, 5, 6, 7] 3 (samp [3, 4, 5, 6, 7] 3)) :
    resolveClassSize (.pyfloat 0) 3 5 = .ok 3 ∧
      classEmission samp 3 [0, 1, 2] = [0, 1, 2] ∧
      buildIndices samp exampleLabels 3 = .ok ([0, 1, 2] ++ samp [3, 4, 5, 6, 7] 3) ∧
      (samp [3, 4, 5, 6, 7] 3).length = 3 ∧
      List.Subperm (samp [3, 4, 5, 6, 7] 3) [3, 4, 5, 6, 7] ∧
      ([0, 1, 2] ++ samp [3, 4, 5, 6, 7] 3).length = 6 := by
  have hnil : samp [0, 1, 2] 0 = [] := List.length_eq_zero.mp h0.1
  have hem0 : classEmission samp 3 [0, 1, 2] = [0, 1, 2] := by
    simp [classEmission, hnil]
  have hem1 : classEmission samp 3 [3, 4, 5, 6, 7] = samp [3, 4, 5, 6, 7] 3 := by
    simp [classEmission]
  refine ⟨?_, hem0, ?_, h1.1, h1.2, by simp [h1.1]⟩
  · norm_num [resolveClassSize, normalizeSF, checkClassSize, pyTrunc]
  · rw [buildIndices, exampleLabels, buildLoop, if_neg (by decide), buildLoop,
      if_neg (by decide), buildLoop]
    dsimp only
    rw [hem1]
    rw [show classEmission samp 3 [0, 1, 2] = [0, 1, 2] from hem0]
    rw [if_pos (by simp [h1.1])]
    simp

/-- C5 (witness for the amended theorem): instantiated with the
deterministic sampler `takeSamp`. -/
theorem c5_amended_witness :
    resolveClassSize (.pyfloat 0) 3 5 = .ok 3 ∧
      classEmission takeSamp 3 [0, 1, 2] = [0, 1, 2] ∧
      buildIndices takeSamp exampleLabels 3 =
        .ok ([0, 1, 2] ++ takeSamp [3, 4, 5, 6, 7] 3) ∧
      (takeSamp [3, 4, 5, 6, 7] 3).length = 3 ∧
      List.Subperm (takeSamp [3, 4, 5, 6, 7] 3) [3, 4, 5, 6, 7] ∧
      ([0, 1, 2] ++ takeSamp [3, 4, 5, 6, 7] 3).length = 6 :=
  c5_amended_example takeSamp ⟨rfl, by decide⟩ ⟨rfl, by decide⟩

/-- C6: for every successful construction (all classes non-empty, any
valid sampler), the built index sequence is the concatenation, in
class-id order, of one emission per class; its total length is
`class_size * num_classes`, and each class's emission has exactly
`class_size` entries, all drawn from that class's index set. -/
theorem c6_build_shape (samp : List Nat → Nat → List Nat) (hv : ValidSamp samp)
    (labels : List (List Nat)) (hne : ∀ l ∈ labels, l ≠ []) (cs : Nat) :
    buildIndices samp labels cs =
        .ok ((labels.map (classEmission samp cs)).flatten) ∧
      ((labels.map (classEmission samp cs)).flatten).length = cs * labels.length ∧
      ∀ l ∈ labels, (classEmission samp cs l).length = cs ∧
        ∀ x ∈ classEmission samp cs l, x ∈ l :=
  ⟨buildIndices_ok_of samp hv labels cs hne,
    emissions_flatten_length samp hv cs labels hne,
    fun l hl => ⟨classEmission_length samp hv cs l (hne l hl),
      classEmission_subset samp hv cs l (hne l hl)⟩⟩

/-- C6 (witness): the worked example with `class_size = 4` and the
deterministic sampler: class 0 oversamples (`[0,1,2]` plus one sampled
index), class 1 undersamples (a 4-sample), total length `4 * 2`. -/
theorem c6_witness :
    buildIndices takeSamp exampleLabels 4 = .ok [0, 1, 2, 0, 3, 4, 5, 6] ∧
      (8 : Nat) = 4 * exampleLabels.length := by
  have h := c6_build_shape takeSamp takeSamp_valid exampleLabels (by decide) 4
  exact ⟨by rw [h.1]; rfl, rfl⟩

/-- Structural unfolding of the float path of `resolveClassSize` (no
arithmetic evaluated). -/
theorem resolveClassSize_pyfloat (f : ℚ) (mn mx : Nat) :
    resolveClassSize (.pyfloat f) mn mx =
      if 0 ≤ f ∧ f ≤ 1 then
        checkClassSize mn mx
          ((mn : Int) + pyTrunc (f * ((|(mx : Int) - (mn : Int)| : Int) : ℚ)))
      else if -1 < f ∧ f < 0 then
        checkClassSize mn mx (pyTrunc ((mx : ℚ) * (-f)))
      else if f < -1 then
        checkClassSize mn mx (pyTrunc ((mn : ℚ) * (-f)))
      else .error .notImplementedError := rfl

/-- C7: every interpolation factor `f` in `[0,1]` resolves the class size
to `min_size + floor(f * (max_size - min_size))`; the string aliases
`"oversampling"` and `"undersampling"` behave as `1.0` and `0.0`, and the
endpoints give `min_size` and `max_size`. -/
theorem c7_interpolation (f : ℚ) (mn mx : Nat) (hle : mn ≤ mx)
    (h0 : 0 ≤ f) (h1 : f ≤ 1) :
    resolveClassSize (.pyfloat f) mn mx =
        .ok ((mn : Int) + ⌊f * ((mx : ℚ) - (mn : ℚ))⌋) ∧
      resolveClassSize (.pystr "oversampling") mn mx =
        resolveClassSize (.pyfloat 1) mn mx ∧
      resolveClassSize (.pystr "undersampling") mn mx =
        resolveClassSize (.pyfloat 0) mn mx ∧
      (f = 0 → resolveClassSize (.pyfloat f) mn mx = .ok (mn : Int)) ∧
      (f = 1 → resolveClassSize (.pyfloat f) mn mx = .ok (mx : Int)) := by
  have hdq : ((|(mx : Int) - (mn : Int)| : Int) : ℚ) = (mx : ℚ) - (mn : ℚ) := by
    rw [abs_of_nonneg (sub_nonneg.mpr (by exact_mod_cast hle))]
    push_cast
    ring
  have hdnn : (0 : ℚ) ≤ (mx : ℚ) - (mn : ℚ) :=
    sub_nonneg.mpr (by exact_mod_cast hle)
  have hnn : (0 : ℚ) ≤ f * ((mx : ℚ) - (mn : ℚ)) := mul_nonneg h0 hdnn
  have hfloor_d : ⌊(mx : ℚ) - (mn : ℚ)⌋ = (mx : Int) - (mn : Int) := by
    rw [show (mx : ℚ) - (mn : ℚ) = (((mx : Int) - (mn : Int) : Int) : ℚ) by push_cast; ring]
    exact Int.floor_intCast _
  have hfb : ⌊f * ((mx : ℚ) - (mn : ℚ))⌋ ≤ (mx : Int) - (mn : Int) := by
    rw [← hfloor_d]
    exact Int.floor_le_floor (mul_le_of_le_one_left hdnn h1)
  have hf0 : 0 ≤ ⌊f * ((mx : ℚ) - (mn : ℚ))⌋ := Int.floor_nonneg.mpr hnn
  have hmain : resolveClassSize (.pyfloat f) mn mx =
      .ok ((mn : Int) + ⌊f * ((mx : ℚ) - (mn : ℚ))⌋) := by
    rw [resolveClassSize_pyfloat, if_pos ⟨h0, h1⟩, hdq, pyTrunc,
      if_neg (not_lt.mpr hnn), checkClassSize, if_pos (by omega)]
  refine ⟨hmain, by rfl, by rfl, fun hf => ?_, fun hf => ?_⟩
  · subst hf
    rw [hmain]
    norm_num
  · subst hf
    rw [hmain, one_mul, hfloor_d]
    congr 1
    omega

/-- C7 (witness): `f = 1/2` on class sizes 3 and 5 gives
`3 + floor((1/2) * 2) = 4`. -/
theorem c7_witness :
    resolveClassSize (.pyfloat (1 / 2)) 3 5 = .ok 4 := by
  have h := (c7_interpolation (1 / 2) 3 5 (by norm_num) (by norm_num) (by norm_num)).1
  rw [h]
  norm_num

/-- C2 (counterexample): the claim says the ratio modes always produce a
class size within `[min_size, max_size]`, so the line-120 assertion never
fires.  On class sizes 3 and 5, `sampling_factor = -0.5` (undersample-max
by 1/2) gives `int(5 * 0.5) = 2 < 3 = min_size`, and
`sampling_factor = -2.0` (oversample-min by 2) gives
`int(3 * 2) = 6 > 5 = max_size`: both make the assertion fail. -/
theorem c2_counterexample :
    resolveClassSize (.pyfloat (-1 / 2)) 3 5 = .error .assertionError ∧
      resolveClassSize (.pyfloat (-2)) 3 5 = .error .assertionError := by
  constructor <;>
    norm_num [resolveClassSize_pyfloat, checkClassSize, pyTrunc]

/-- C2 (amended): for partitions with all classes non-empty, the ratio
modes satisfy one bound of the range postcondition unconditionally —
undersample-max always gives `class_size <= max_size`, oversample-min
always gives `min_size <= class_size` — and the resolution succeeds
exactly when the opposite bound also holds; otherwise the line-120
assertion rejects construction. -/
theorem c2_ratio_one_sided (f : ℚ) (mn mx : Nat) (h1 : 1 ≤ mn) (_hle : mn ≤ mx) :
    ((-1 < f ∧ f < 0) →
      pyTrunc ((mx : ℚ) * (-f)) ≤ (mx : Int) ∧
        (resolveClassSize (.pyfloat f) mn mx = .ok (pyTrunc ((mx : ℚ) * (-f))) ↔
          (mn : Int) ≤ pyTrunc ((mx : ℚ) * (-f)))) ∧
      (f < -1 →
        (mn : Int) ≤ pyTrunc ((mn : ℚ) * (-f)) ∧
          (resolveClassSize (.pyfloat f) mn mx = .ok (pyTrunc ((mn : ℚ) * (-f))) ↔
            pyTrunc ((mn : ℚ) * (-f)) ≤ (mx : Int))) := by
  constructor
  · rintro ⟨hfa, hfb⟩
    have hnn : (0 : ℚ) ≤ (mx : ℚ) * (-f) :=
      mul_nonneg (by positivity) (by linarith)
    have htr : pyTrunc ((mx : ℚ) * (-f)) = ⌊(mx : ℚ) * (-f)⌋ := by
      rw [pyTrunc, if_neg (not_lt.mpr hnn)]
    have hub : pyTrunc ((mx : ℚ) * (-f)) ≤ (mx : Int) := by
      rw [htr]
      calc ⌊(mx : ℚ) * (-f)⌋ ≤ ⌊(mx : ℚ)⌋ :=
            Int.floor_le_floor (mul_le_of_le_one_right (by positivity) (by linarith))
        _ = (mx : Int) := Int.floor_natCast mx
    refine ⟨hub, ?_⟩
    rw [resolveClassSize_pyfloat, if_neg (by rintro ⟨h, _⟩; linarith),
      if_pos ⟨hfa, hfb⟩, checkClassSize]
    by_cases hc : pyTrunc ((mx : ℚ) * (-f)) ≤ (mx : Int) ∧
        (mn : Int) ≤ pyTrunc ((mx : ℚ) * (-f))
    · rw [if_pos hc]
      exact iff_of_true rfl hc.2
    · rw [if_neg hc]
      have hnc : ¬ (mn : Int) ≤ pyTrunc ((mx : ℚ) * (-f)) := fun h => hc ⟨hub, h⟩
      exact iff_of_false (by simp) hnc
  · intro hf
    have hnn : (0 : ℚ) ≤ (mn : ℚ) * (-f) :=
      mul_nonneg (by positivity) (by linarith)
    have htr : pyTrunc ((mn : ℚ) * (-f)) = ⌊(mn : ℚ) * (-f)⌋ := by
      rw [pyTrunc, if_neg (not_lt.mpr hnn)]
    have hlb : (mn : Int) ≤ pyTrunc ((mn : ℚ) * (-f)) := by
      rw [htr]
      calc (mn : Int) = ⌊(mn : ℚ)⌋ := (Int.floor_natCast mn).symm
        _ ≤ ⌊(mn : ℚ) * (-f)⌋ :=
            Int.floor_le_floor (le_mul_of_one_le_right (by positivity) (by linarith))
    refine ⟨hlb, ?_⟩
    rw [resolveClassSize_pyfloat, if_neg (by rintro ⟨h, _⟩; linarith),
      if_neg (by rintro ⟨h, _⟩; linarith), if_pos hf, checkClassSize]
    by_cases hc : pyTrunc ((mn : ℚ) * (-f)) ≤ (mx : Int) ∧
        (mn : Int) ≤ pyTrunc ((mn : ℚ) * (-f))
    · rw [if_pos hc]
      exact iff_of_true rfl hc.1
    · rw [if_neg hc]
      have hnc : ¬ pyTrunc ((mn : ℚ) * (-f)) ≤ (mx : Int) := fun h => hc ⟨h, hlb⟩
      exact iff_of_false (by simp) hnc

/-- C2 (witness for the amended theorem): `f = -3/5` on class sizes 3 and
5 gives `int(5 * 3/5) = 3`, inside the range, so resolution succeeds. -/
theorem c2_witness :
    resolveClassSize (.pyfloat (-3 / 5)) 3 5 = .ok 3 := by
  have h := ((c2_ratio_one_sided (-3 / 5) 3 5 (by norm_num) (by norm_num)).1
    (by norm_num)).2
  have e : pyTrunc (((5 : Nat) : ℚ) * (-(-3 / 5 : ℚ))) = 3 := by
    norm_num [pyTrunc]
  rw [show (Except.ok 3 : Except PyErr Int) =
    .ok (pyTrunc (((5 : Nat) : ℚ) * (-(-3 / 5 : ℚ)))) by rw [e]]
  exact h.mpr (by rw [e]; norm_num)

/-- C8: with shuffling disabled, any two iteration passes over the same
sampler yield exactly `class_size * num_classes` items in identical
order, namely the order built at construction — the concatenation of the
per-class emissions in class-id order. -/
theorem c8_iter_deterministic (samp : List Nat → Nat → List Nat)
    (labels : List (List Nat)) (sf : SamplingFactor)
    (shuf shuf' : List Nat → List Nat) (s : Sampler)
    (h : initFromPartition samp labels (some sf) false = .ok s) :
    (iterPass shuf s).2 = s.indices ∧
      (iterPass shuf' (iterPass shuf s).1).2 = s.indices ∧
      s.indices = (labels.map (classEmission samp s.classSize)).flatten ∧
      s.indices.length = samplerLen s ∧
      samplerLen s = s.classSize * s.numClasses := by
  rw [initFromPartition] at h
  cases labels with
  | nil => cases h
  | cons a as =>
    rw [List.map_cons] at h
    dsimp only at h
    cases hr : resolveClassSize sf ((as.map List.length).foldl Nat.min a.length)
        ((as.map List.length).foldl Nat.max a.length) with
    | error e => rw [hr] at h; cases h
    | ok cs =>
      rw [hr] at h
      dsimp only at h
      cases hb : buildIndices samp (a :: as) cs.toNat with
      | error e => rw [hb] at h; cases h
      | ok idx =>
        rw [hb] at h
        dsimp only at h
        cases h
        have hinv := buildIndices_ok_inv samp (a :: as) cs.toNat idx hb
        refine ⟨rfl, rfl, hinv.1, ?_, rfl⟩
        simpa [samplerLen] using hinv.2

/-- C8 (witness): the worked example with `sampling_factor = 0.0`,
shuffling disabled, iterated twice with two different would-be
permutations (`List.reverse` and `id`): both passes yield the built
order `[0,1,2,3,4,5]` of length `3 * 2`. -/
theorem c8_witness :
    (iterPass List.reverse (Sampler.mk 2 3 [0, 1, 2, 3, 4, 5] false)).2 =
        (Sampler.mk 2 3 [0, 1, 2, 3, 4, 5] false).indices ∧
      (iterPass id (iterPass List.reverse
          (Sampler.mk 2 3 [0, 1, 2, 3, 4, 5] false)).1).2 =
        (Sampler.mk 2 3 [0, 1, 2, 3, 4, 5] false).indices ∧
      (Sampler.mk 2 3 [0, 1, 2, 3, 4, 5] false).indices =
        ((exampleLabels.map (classEmission takeSamp
          (Sampler.mk 2 3 [0, 1, 2, 3, 4, 5] false).classSize)).flatten) ∧
      (Sampler.mk 2 3 [0, 1, 2, 3, 4, 5] false).indices.length =
        samplerLen (Sampler.mk 2 3 [0, 1, 2, 3, 4, 5] false) ∧
      samplerLen (Sampler.mk 2 3 [0, 1, 2, 3, 4, 5] false) =
        (Sampler.mk 2 3 [0, 1, 2, 3, 4, 5] false).classSize *
          (Sampler.mk 2 3 [0, 1, 2, 3, 4, 5] false).numClasses := by
  refine c8_iter_deterministic takeSamp exampleLabels (.pyfloat 0)
    List.reverse id (Sampler.mk 2 3 [0, 1, 2, 3, 4, 5] false) ?_
  have hr : resolveClassSize (.pyfloat 0) 3 5 = .ok 3 := by
    norm_num [resolveClassSize_pyfloat, checkClassSize, pyTrunc]
  rw [initFromPartition, exampleLabels]
  dsimp only [List.map_cons, List.map_nil, List.foldl]
  rw [show resolveClassSize (.pyfloat 0)
      (([0, 1, 2] : List Nat).length.min ([3, 4, 5, 6, 7] : List Nat).length)
      (([0, 1, 2] : List Nat).length.max ([3, 4, 5, 6, 7] : List Nat).length) =
      .ok 3 from hr]
  rfl

/-- C9: in the oversampling case (`n <= class_size`, distinct class
indices), every index of the class occurs at least
`class_size / n` and at most `class_size / n + 1` times in the class's
emission, because the remainder is sampled without replacement. -/
theorem c9_oversample_multiplicity (samp : List Nat → Nat → List Nat)
    (cs : Nat) (l : List Nat) (x : Nat) (hnd : l.Nodup) (hx : x ∈ l)
    (hlen : l.length ≤ cs)
    (hs : IsSample l (cs % l.length) (samp l (cs % l.length))) :
    cs / l.length ≤ (classEmission samp cs l).count x ∧
      (classEmission samp cs l).count x ≤ cs / l.length + 1 := by
  have hone : l.count x = 1 := List.count_eq_one_of_mem hnd hx
  have hsc : (samp l (cs % l.length)).count x ≤ 1 :=
    le_trans (hs.2.count_le x) (le_of_eq hone)
  unfold classEmission
  rw [if_pos hlen, List.count_append, count_flatten_replicate, hone,
    Nat.mul_one]
  omega

/-- C9 (witness): class `[0,1,2]` with `class_size = 7`: the emission
`[0,1,2,0,1,2,0]` contains index 0 exactly 3 times, between
`7 / 3 = 2` and `7 / 3 + 1 = 3`. -/
theorem c9_witness :
    7 / 3 ≤ (classEmission takeSamp 7 [0, 1, 2]).count 0 ∧
      (classEmission takeSamp 7 [0, 1, 2]).count 0 ≤ 7 / 3 + 1 :=
  c9_oversample_multiplicity takeSamp 7 [0, 1, 2] 0 (by decide) (by decide)
    (by decide) ⟨rfl, by decide⟩
